import Mathlib

/-!
Shallow embedding of `segmenter.py` (class SegmentationVisualization).

The program keeps four parallel stacks (`xpoints`, `ypoints`, `circle_shapes`,
`annotations`), a single current SAM mask (`current_mask`) plus the matplotlib
artist displaying it (`mask_plot`), and recomputes the mask from the most
recent click on every add/remove event.

External collaborators are modelled as parameters:
* the SAM predictor (`predictor.predict`) is a function from point prompts and
  labels to a list of (mask, score) candidates;
* the minimal-enclosing-circle solver (`sec.make_circle`, the
  smallestenclosingcircle helper module, not part of this file's source) is a
  function from a point list to an optional circle; it returns `none` on the
  empty list (the Python module returns `None` there, and the subscript
  `circle[2]` then raises).

Python operations that can raise (IndexError on `[-1]` of an empty list,
TypeError on subscripting `None`, AttributeError on `None.shape`) are modelled
as `Option`-returning functions, `none` being the raising path.

Python's `sorted` is a stable ascending sort; it is embedded as Mathlib's
`List.insertionSort`, which is also stable (any two stable sorts agree on
every list), and which the kernel can evaluate on concrete inputs.
-/

namespace Segmenter

open scoped List

/-- A SAM mask: a boolean 2D grid, stored as a list of rows
(`mask[y][x]` in the Python indexing `row = mask[y]; row[x]`). -/
abbrev Mask := List (List Bool)

/-- A fitted circle as returned by the solver: (center x, center y, radius),
`circle[0]`, `circle[1]`, `circle[2]` in the source. -/
abbrev Circle := ℚ × ℚ × ℚ

/-- The data determining one annotation artist: the fitted circle it points at
and the sand-pixel count whose sphericity is printed in its text. -/
abbrev AnnotationData := Circle × ℕ

/-- The SAM predictor collaborator: `predict(point_coords, point_labels, ...)`
returning the zipped list of (mask, confidence score) candidates. -/
abbrev Predictor := List (ℚ × ℚ) → List ℤ → List (Mask × ℚ)

/-- The minimal-enclosing-circle collaborator, `sec.make_circle`; `none`
models the `None` returned on an empty point list. -/
abbrev CircleSolver := List (ℕ × ℕ) → Option Circle

/-- The mutable state of a `SegmentationVisualization` instance. -/
structure VisState where
  xpoints : List ℚ
  ypoints : List ℚ
  scatter_plot : Option (List ℚ × List ℚ)
  current_mask : Option Mask
  mask_plot : Option Mask
  circle_shapes : List Circle
  annotations : List AnnotationData
  all_points : List (ℕ × ℕ)
  redrawCount : ℕ
deriving DecidableEq

/-- The state set up by `__init__`: all stacks empty, no mask. -/
def initState : VisState :=
  { xpoints := []
    ypoints := []
    scatter_plot := none
    current_mask := none
    mask_plot := none
    circle_shapes := []
    annotations := []
    all_points := []
    redrawCount := 0 }

/-- Number of rows: `h` in `h, w = self.current_mask.shape[-2:]`. -/
def maskH (m : Mask) : ℕ := m.length

/-- Number of columns: `w` in `h, w = self.current_mask.shape[-2:]`. -/
def maskW (m : Mask) : ℕ := (m.headD []).length

/-- Cell lookup `row = self.current_mask[y]; row[x]`, as a total function. -/
def maskAt (m : Mask) (x y : ℕ) : Bool := (m.getD y []).getD x false

/-- The foreground scan of `add_circle`:
`for x in range(0, w): for y in range(0, h): if row[x]: append (x, y)`. -/
def allPoints (m : Mask) : List (ℕ × ℕ) :=
  (List.range (maskW m)).flatMap fun x =>
    (List.range (maskH m)).filterMap fun y =>
      if maskAt m x y then some (x, y) else none

/-- Ascending comparison on confidence scores, the key
`lambda mask_score: mask_score[1]` of the Python `sorted` call. -/
def scoreLE (a b : Mask × ℚ) : Prop := a.2 ≤ b.2

instance : DecidableRel scoreLE := fun a b => inferInstanceAs (Decidable (a.2 ≤ b.2))

instance : IsTotal (Mask × ℚ) scoreLE := ⟨fun a b => le_total a.2 b.2⟩

instance : IsTrans (Mask × ℚ) scoreLE := ⟨fun _ _ _ h h' => le_trans h h'⟩

/-- Lines 81-83 of the source: sort the (mask, score) pairs by ascending
score with Python's stable `sorted`, then take the last pair;
`none` models the IndexError of `[-1]` on an empty candidate list. -/
def selectPair (pairs : List (Mask × ℚ)) : Option (Mask × ℚ) :=
  (pairs.insertionSort scoreLE).getLast?

/-- Embedding of `draw_mask`: remove the previous mask artist; if there are no points,
return (leaving `current_mask` untouched); otherwise query the predictor
with the single newest point and positive label `[1]`, keep the
highest-scoring candidate as the new `current_mask`, and draw it. -/
def draw_mask (P : Predictor) (s : VisState) : Option VisState :=
  if s.xpoints.length = 0 then
    some { s with mask_plot := none }
  else
    match s.xpoints.getLast?, s.ypoints.getLast? with
    | some x, some y =>
        match selectPair (P [(x, y)] [1]) with
        | some best =>
            some { s with mask_plot := some best.1, current_mask := some best.1 }
        | none => none
    | _, _ => none

/-- Embedding of `draw_points`: replace the scatter plot with all current click points. -/
def draw_points (s : VisState) : VisState :=
  { s with scatter_plot := some (s.xpoints, s.ypoints) }

/-- Embedding of `add_circle`: scan the current mask for foreground pixels, fit the
minimal enclosing circle, compute the sphericity, push the circle artist
and its annotation. `none` models the raising paths: `None.shape` (no
current mask), `circle[2]` with `circle = None` (solver failed on an
empty point list), and the ZeroDivisionError of line 184
(`sand_pixels / circle_area` is Python float division, and
`circle_area = pi * r * r` is exactly `0.0` iff the fitted radius is 0),
which aborts the call before any circle or annotation is pushed. -/
def add_circle (fit : CircleSolver) (s : VisState) : Option VisState :=
  match s.current_mask with
  | none => none
  | some m =>
      let pts := allPoints m
      match fit pts with
      | none => none
      | some c =>
          if c.2.2 = 0 then none
          else
            some { s with
                    all_points := pts
                    circle_shapes := s.circle_shapes ++ [c]
                    annotations := s.annotations ++ [(c, pts.length)] }

/-- Embedding of `remove_circle`: pop the newest circle artist and annotation;
`none` models the IndexError of `[-1]` on an empty list. -/
def remove_circle (s : VisState) : Option VisState :=
  if s.circle_shapes = [] then none
  else if s.annotations = [] then none
  else
    some { s with
            circle_shapes := s.circle_shapes.dropLast
            annotations := s.annotations.dropLast }

/-- Embedding of `add_point(x, y)`: append the point, redraw mask and points, fit and
push the circle, then ask matplotlib to redraw (`draw_idle`). -/
def add_point (P : Predictor) (fit : CircleSolver) (x y : ℚ) (s : VisState) :
    Option VisState :=
  let s1 := { s with xpoints := s.xpoints ++ [x], ypoints := s.ypoints ++ [y] }
  (draw_mask P s1).bind fun s2 =>
    (add_circle fit (draw_points s2)).map fun s3 =>
      { s3 with redrawCount := s3.redrawCount + 1 }

/-- Embedding of `remove_last_point()`: if any point is left, pop the newest point,
redraw mask and points, pop the newest circle/annotation pair and ask
matplotlib to redraw; otherwise do nothing. -/
def remove_last_point (P : Predictor) (s : VisState) : Option VisState :=
  if 0 < s.xpoints.length then
    let s1 := { s with xpoints := s.xpoints.dropLast, ypoints := s.ypoints.dropLast }
    (draw_mask P s1).bind fun s2 =>
      (remove_circle (draw_points s2)).map fun s3 =>
        { s3 with redrawCount := s3.redrawCount + 1 }
  else some s

/-- States reachable from the initial state by completed (non-raising)
`add_point` / `remove_last_point` calls. -/
inductive Reachable (P : Predictor) (fit : CircleSolver) : VisState → Prop
  | init : Reachable P fit initState
  | add {s s' : VisState} {x y : ℚ} :
      Reachable P fit s → add_point P fit x y s = some s' → Reachable P fit s'
  | remove {s s' : VisState} :
      Reachable P fit s → remove_last_point P s = some s' → Reachable P fit s'

/-! Characterization lemmas: what a completed operation did to the state. -/

theorem draw_mask_append (P : Predictor) (s : VisState) (x y : ℚ) :
    draw_mask P { s with xpoints := s.xpoints ++ [x], ypoints := s.ypoints ++ [y] } =
      (selectPair (P [(x, y)] [1])).map fun best =>
        { s with xpoints := s.xpoints ++ [x], ypoints := s.ypoints ++ [y],
                 mask_plot := some best.1, current_mask := some best.1 } := by
  unfold draw_mask
  simp only [List.getLast?_concat, List.length_append, List.length_cons]
  rw [if_neg (by simp)]
  cases selectPair (P [(x, y)] [1]) <;> rfl

/-- A successful `add_point` call appends the point, recomputes the mask from
the predictor on that single point with label 1, and pushes one
circle/annotation pair; everything about the result state is determined. -/
theorem add_point_some {P : Predictor} {fit : CircleSolver} {x y : ℚ}
    {s s' : VisState} (h : add_point P fit x y s = some s') :
    ∃ best c, selectPair (P [(x, y)] [1]) = some best ∧
      fit (allPoints best.1) = some c ∧ c.2.2 ≠ 0 ∧
      s' = { s with
              xpoints := s.xpoints ++ [x]
              ypoints := s.ypoints ++ [y]
              scatter_plot := some (s.xpoints ++ [x], s.ypoints ++ [y])
              current_mask := some best.1
              mask_plot := some best.1
              circle_shapes := s.circle_shapes ++ [c]
              annotations := s.annotations ++ [(c, (allPoints best.1).length)]
              all_points := allPoints best.1
              redrawCount := s.redrawCount + 1 } := by
  unfold add_point at h
  dsimp only at h
  rw [draw_mask_append] at h
  cases hb : selectPair (P [(x, y)] [1]) with
  | none => rw [hb] at h; cases h
  | some best =>
      rw [hb] at h
      simp only [Option.map_some', Option.some_bind] at h
      unfold add_circle at h
      simp only [draw_points] at h
      cases hc : fit (allPoints best.1) with
      | none => rw [hc] at h; simp at h
      | some c =>
          rw [hc] at h
          dsimp only at h
          by_cases hr : c.2.2 = 0
          · rw [if_pos hr] at h
            cases h
          · rw [if_neg hr] at h
            refine ⟨best, c, rfl, hc, hr, ?_⟩
            cases h
            rfl

/-- A successful `remove_last_point` on a state whose stack empties: the point
is popped, the mask plot is removed but `current_mask` is left as it was,
recomputation is skipped, and the circle/annotation pair is popped. -/
theorem remove_last_point_some_empty_top {P : Predictor} {s s' : VisState}
    (hne : s.xpoints ≠ []) (hd : s.xpoints.dropLast = [])
    (h : remove_last_point P s = some s') :
    s.circle_shapes ≠ [] ∧ s.annotations ≠ [] ∧
    s' = { s with
            xpoints := []
            ypoints := s.ypoints.dropLast
            scatter_plot := some ([], s.ypoints.dropLast)
            mask_plot := none
            circle_shapes := s.circle_shapes.dropLast
            annotations := s.annotations.dropLast
            redrawCount := s.redrawCount + 1 } := by
  unfold remove_last_point at h
  dsimp only at h
  rw [if_pos (List.length_pos.mpr hne)] at h
  unfold draw_mask at h
  dsimp only at h
  rw [if_pos (by simp [hd])] at h
  rw [Option.some_bind] at h
  unfold remove_circle at h
  simp only [draw_points, hd] at h
  by_cases hcs : s.circle_shapes = []
  · simp [hcs] at h
  · by_cases han : s.annotations = []
    · simp [hcs, han] at h
    · refine ⟨hcs, han, ?_⟩
      simp only [if_neg hcs, if_neg han, Option.map_some] at h
      cases h
      rfl

/-- A successful `remove_last_point` with at least one point remaining: the
point is popped, the mask is recomputed from the new top point (single
point prompt, label 1), and the newest circle/annotation pair is popped
with no circle recomputation. -/
theorem remove_last_point_some_top {P : Predictor} {s s' : VisState}
    (hne : s.xpoints.dropLast ≠ [])
    (h : remove_last_point P s = some s') :
    ∃ x' y' best,
      s.xpoints.dropLast.getLast? = some x' ∧
      s.ypoints.dropLast.getLast? = some y' ∧
      selectPair (P [(x', y')] [1]) = some best ∧
      s.circle_shapes ≠ [] ∧ s.annotations ≠ [] ∧
      s' = { s with
              xpoints := s.xpoints.dropLast
              ypoints := s.ypoints.dropLast
              scatter_plot := some (s.xpoints.dropLast, s.ypoints.dropLast)
              current_mask := some best.1
              mask_plot := some best.1
              circle_shapes := s.circle_shapes.dropLast
              annotations := s.annotations.dropLast
              redrawCount := s.redrawCount + 1 } := by
  have hne0 : s.xpoints ≠ [] := by
    intro hx; rw [hx] at hne; exact hne rfl
  unfold remove_last_point at h
  dsimp only at h
  rw [if_pos (List.length_pos.mpr hne0)] at h
  unfold draw_mask at h
  dsimp only at h
  rw [if_neg (by
    have h1 := List.length_pos.mpr hne
    simp only [List.length_dropLast] at h1 ⊢
    omega)] at h
  cases hx : s.xpoints.dropLast.getLast? with
  | none => rw [List.getLast?_eq_none_iff] at hx; exact absurd hx hne
  | some x' =>
      cases hy : s.ypoints.dropLast.getLast? with
      | none => rw [hx, hy] at h; dsimp only at h; cases h
      | some y' =>
          rw [hx, hy] at h
          dsimp only at h
          cases hb : selectPair (P [(x', y')] [1]) with
          | none => rw [hb] at h; cases h
          | some best =>
              rw [hb] at h
              rw [Option.some_bind] at h
              unfold remove_circle at h
              simp only [draw_points] at h
              by_cases hcs : s.circle_shapes = []
              · simp [hcs] at h
              · by_cases han : s.annotations = []
                · simp [hcs, han] at h
                · refine ⟨x', y', best, rfl, rfl, hb, hcs, han, ?_⟩
                  simp only [if_neg hcs, if_neg han, Option.map_some'] at h
                  cases h
                  rfl

/-- On an empty prompt stack, `remove_last_point` takes the guarded branch
and returns the state unchanged (helper shared by the invariant proofs). -/
theorem remove_last_point_nil (P : Predictor) (s : VisState)
    (h : s.xpoints = []) : remove_last_point P s = some s := by
  unfold remove_last_point
  rw [if_neg (by simp [h])]

/-! Concrete collaborators and states used to instantiate the theorems. -/

/-- A mock predictor returning one two-pixel (1x2, all-foreground)
candidate mask, so that circle fitting yields a nonzero radius. -/
def testP : Predictor := fun _ _ => [([[true, true]], 1)]

/-- A mock predictor returning one all-background candidate mask. -/
def emptyMaskP : Predictor := fun _ _ => [([[false]], 1)]

/-- A mock predictor returning one single-foreground-pixel candidate mask,
the degenerate case for circle fitting. -/
def onePixelP : Predictor := fun _ _ => [([[true]], 1)]

/-- A mock spec-conforming solver: it fails on the empty point set, returns
a zero-radius circle at the point for the degenerate singleton set, and
a nonzero radius for two or more points. -/
def testFit : CircleSolver := fun pts =>
  match pts with
  | [] => none
  | [(x, y)] => some ((x : ℚ), (y : ℚ), 0)
  | (x, y) :: _ :: _ => some ((x : ℚ), (y : ℚ), 1)

/-- State after one `add_point(1, 2)` from the initial state. -/
def stateA : VisState := (add_point testP testFit 1 2 initState).getD initState

/-- State after `add_point(1, 2)` then `add_point(3, 4)`. -/
def stateB : VisState := (add_point testP testFit 3 4 stateA).getD initState

/-- State after `add_point(1, 2)` then `remove_last_point()`. -/
def stateAR : VisState := (remove_last_point testP stateA).getD initState

/-- State after two adds then one `remove_last_point()`. -/
def stateBR : VisState := (remove_last_point testP stateB).getD initState

/-- C9: calling `remove_last_point` with an empty prompt stack is a guarded
no-op, not an error: the state (all stacks, the current mask, and the
redraw counter) is returned unchanged and no redraw is requested. -/
theorem remove_last_point_empty_noop (P : Predictor) (s : VisState)
    (h : s.xpoints = []) : remove_last_point P s = some s :=
  remove_last_point_nil P s h

theorem remove_last_point_empty_noop_witness :
    initState.xpoints = [] ∧ remove_last_point testP initState = some initState :=
  ⟨rfl, remove_last_point_empty_noop testP initState rfl⟩

/-- C7: `add_point(x, y)` immediately followed by `remove_last_point()`
restores `xpoints` and `ypoints` exactly (length and values) and returns
the circle and annotation stacks to their pre-add lengths. -/
theorem add_then_remove_restores (P : Predictor) (fit : CircleSolver)
    (x y : ℚ) (s s1 s2 : VisState)
    (h1 : add_point P fit x y s = some s1)
    (h2 : remove_last_point P s1 = some s2) :
    s2.xpoints = s.xpoints ∧ s2.ypoints = s.ypoints ∧
    s2.circle_shapes.length = s.circle_shapes.length ∧
    s2.annotations.length = s.annotations.length := by
  obtain ⟨best, c, hb, hc, hr, rfl⟩ := add_point_some h1
  by_cases hs : s.xpoints = []
  · have hd : ({ s with
        xpoints := s.xpoints ++ [x]
        ypoints := s.ypoints ++ [y]
        scatter_plot := some (s.xpoints ++ [x], s.ypoints ++ [y])
        current_mask := some best.1
        mask_plot := some best.1
        circle_shapes := s.circle_shapes ++ [c]
        annotations := s.annotations ++ [(c, (allPoints best.1).length)]
        all_points := allPoints best.1
        redrawCount := s.redrawCount + 1 } : VisState).xpoints.dropLast = [] := by
      simp [List.dropLast_concat, hs]
    obtain ⟨-, -, rfl⟩ := remove_last_point_some_empty_top (by simp) hd h2
    simp [List.dropLast_concat, hs]
  · have hne : ({ s with
        xpoints := s.xpoints ++ [x]
        ypoints := s.ypoints ++ [y]
        scatter_plot := some (s.xpoints ++ [x], s.ypoints ++ [y])
        current_mask := some best.1
        mask_plot := some best.1
        circle_shapes := s.circle_shapes ++ [c]
        annotations := s.annotations ++ [(c, (allPoints best.1).length)]
        all_points := allPoints best.1
        redrawCount := s.redrawCount + 1 } : VisState).xpoints.dropLast ≠ [] := by
      simpa [List.dropLast_concat] using hs
    obtain ⟨x', y', best', hx, hy, hb', -, -, rfl⟩ :=
      remove_last_point_some_top hne h2
    simp [List.dropLast_concat]

theorem add_then_remove_restores_witness :
    add_point testP testFit 1 2 initState = some stateA ∧
    remove_last_point testP stateA = some stateAR ∧
    (stateAR.xpoints = initState.xpoints ∧ stateAR.ypoints = initState.ypoints ∧
     stateAR.circle_shapes.length = initState.circle_shapes.length ∧
     stateAR.annotations.length = initState.annotations.length) :=
  ⟨by decide, by decide,
    add_then_remove_restores testP testFit 1 2 initState stateA stateAR
      (by decide) (by decide)⟩

/-- C2: the Controller does not guard against all-background masks before
invoking the circle analysis. If the predictor returns a mask with zero
foreground pixels, `add_point` reaches the solver's empty-point-set
failure: the scan collects the empty list, `make_circle` returns `None`
and `add_circle` raises (modelled as `none`). The claimed guard is
absent from the code. -/
theorem add_point_no_empty_mask_guard :
    allPoints [[false]] = [] ∧ testFit [] = none ∧
    add_point emptyMaskP testFit 1 1 initState = none := by decide

/-- C1: after any finite sequence of completed `add_point` and
`remove_last_point` operations from the initial state, the four parallel
stacks have equal length. -/
theorem reachable_stacks_in_sync (P : Predictor) (fit : CircleSolver)
    (s : VisState) (h : Reachable P fit s) :
    s.xpoints.length = s.ypoints.length ∧
    s.ypoints.length = s.circle_shapes.length ∧
    s.circle_shapes.length = s.annotations.length := by
  induction h with
  | init => exact ⟨rfl, rfl, rfl⟩
  | @add s s' x y hr hstep ih =>
      obtain ⟨best, c, hb, hc, hr, rfl⟩ := add_point_some hstep
      simp only [List.length_append, List.length_cons, List.length_nil]
      omega
  | @remove s s' hr hstep ih =>
      by_cases hs : s.xpoints = []
      · rw [remove_last_point_nil P s hs] at hstep
        cases hstep
        exact ih
      · by_cases hd : s.xpoints.dropLast = []
        · obtain ⟨hcs, han, rfl⟩ := remove_last_point_some_empty_top hs hd hstep
          simp only [List.length_dropLast, List.length_nil]
          have hx1 := congrArg List.length hd
          simp only [List.length_dropLast, List.length_nil] at hx1
          omega
        · obtain ⟨x', y', best, hx, hy, hb, hcs, han, rfl⟩ :=
            remove_last_point_some_top hd hstep
          simp only [List.length_dropLast]
          omega

theorem reachable_stacks_in_sync_witness :
    Reachable testP testFit stateB ∧
    (stateB.xpoints.length = stateB.ypoints.length ∧
     stateB.ypoints.length = stateB.circle_shapes.length ∧
     stateB.circle_shapes.length = stateB.annotations.length) :=
  have h1 : Reachable testP testFit stateA :=
    Reachable.add Reachable.init
      (show add_point testP testFit 1 2 initState = some stateA by decide)
  have hr : Reachable testP testFit stateB :=
    Reachable.add h1
      (show add_point testP testFit 3 4 stateA = some stateB by decide)
  ⟨hr, reachable_stacks_in_sync testP testFit stateB hr⟩

/-- C3 counterexample: the claim fails on the code. After a completing
`add_point(1, 2)` (two-pixel mask, nonzero-radius circle, so no raise
anywhere) followed by `remove_last_point()`, the prompt stack is empty,
yet `current_mask` still holds the stale mask of the removed point:
`draw_mask` removes only the displayed artist (`mask_plot`) and returns
early without clearing `self.current_mask`. -/
theorem current_mask_stale_after_empty :
    add_point testP testFit 1 2 initState = some stateA ∧
    remove_last_point testP stateA = some stateAR ∧
    stateAR.xpoints = [] ∧
    stateAR.current_mask = some [[true, true]] ∧ stateAR.mask_plot = none := by
  decide

/-- C3 amended: the displayed mask artist (`mask_plot`), not the stored
`current_mask`, exists iff the prompt stack is non-empty, in every
reachable state; when `remove_last_point` empties the stack the mask
artist is removed and mask/circle recomputation is skipped, but
`current_mask` is left holding its previous (stale) value. -/
theorem mask_plot_iff_points (P : Predictor) (fit : CircleSolver)
    (s : VisState) (h : Reachable P fit s) :
    s.mask_plot ≠ none ↔ s.xpoints ≠ [] := by
  induction h with
  | init => simp [initState]
  | @add s s' x y hr hstep ih =>
      obtain ⟨best, c, hb, hc, hr, rfl⟩ := add_point_some hstep
      simp
  | @remove s s' hr hstep ih =>
      by_cases hs : s.xpoints = []
      · rw [remove_last_point_nil P s hs] at hstep
        cases hstep
        exact ih
      · by_cases hd : s.xpoints.dropLast = []
        · obtain ⟨hcs, han, rfl⟩ := remove_last_point_some_empty_top hs hd hstep
          simp
        · obtain ⟨x', y', best, hx, hy, hb, hcs, han, rfl⟩ :=
            remove_last_point_some_top hd hstep
          simp [hd]

theorem mask_plot_iff_points_witness :
    Reachable testP testFit stateAR ∧
    (stateAR.mask_plot ≠ none ↔ stateAR.xpoints ≠ []) :=
  have h1 : Reachable testP testFit stateA :=
    Reachable.add Reachable.init
      (show add_point testP testFit 1 2 initState = some stateA by decide)
  have hr : Reachable testP testFit stateAR :=
    Reachable.remove h1
      (show remove_last_point testP stateA = some stateAR by decide)
  ⟨hr, mask_plot_iff_points testP testFit stateAR hr⟩

/-- C5: every mask recomputation queries the predictor with exactly the
singleton prompt holding the current top of the stack and the single
positive label `[1]`, and the selected candidate replaces `current_mask`
entirely: the resulting mask is a function of that one prompt alone,
independent of the previous mask (no merging or accumulation). -/
theorem mask_recomputed_from_top_only (P : Predictor) (fit : CircleSolver)
    (x y x' y' : ℚ) (s s' t t' : VisState) :
    (add_point P fit x y s = some s' →
      s'.current_mask = (selectPair (P [(x, y)] [1])).map fun q => q.1) ∧
    (t.xpoints.dropLast ≠ [] →
      t.xpoints.dropLast.getLast? = some x' →
      t.ypoints.dropLast.getLast? = some y' →
      remove_last_point P t = some t' →
      t'.current_mask = (selectPair (P [(x', y')] [1])).map fun q => q.1) := by
  constructor
  · intro h
    obtain ⟨best, c, hb, hc, hr, rfl⟩ := add_point_some h
    simp [hb]
  · intro hne hx hy h
    obtain ⟨x'', y'', best, hx', hy', hb, hcs, han, rfl⟩ :=
      remove_last_point_some_top hne h
    obtain rfl : x' = x'' := Option.some.inj (hx.symm.trans hx')
    obtain rfl : y' = y'' := Option.some.inj (hy.symm.trans hy')
    simp [hb]

theorem mask_recomputed_from_top_only_witness :
    stateA.current_mask = (selectPair (testP [(1, 2)] [1])).map fun q => q.1 :=
  (mask_recomputed_from_top_only testP testFit 1 2 0 0 initState stateA
      initState initState).1 (by decide)

/-- C6: `remove_last_point` on a stack of length at least 2 recomputes the
mask from the new top point but does not recompute any circle: it only
pops the newest circle/annotation pair, leaving the historical circles of
the remaining points. -/
theorem remove_pops_circle_only (P : Predictor) (s s' : VisState) (x' y' : ℚ)
    (h2 : 2 ≤ s.xpoints.length)
    (hx : s.xpoints.dropLast.getLast? = some x')
    (hy : s.ypoints.dropLast.getLast? = some y')
    (h : remove_last_point P s = some s') :
    s'.xpoints = s.xpoints.dropLast ∧
    s'.circle_shapes = s.circle_shapes.dropLast ∧
    s'.annotations = s.annotations.dropLast ∧
    s'.current_mask = (selectPair (P [(x', y')] [1])).map fun q => q.1 := by
  have hne : s.xpoints.dropLast ≠ [] := by
    intro hnil
    have hlen := congrArg List.length hnil
    simp only [List.length_dropLast, List.length_nil] at hlen
    omega
  obtain ⟨x'', y'', best, hx', hy', hb, hcs, han, rfl⟩ :=
    remove_last_point_some_top hne h
  obtain rfl : x' = x'' := Option.some.inj (hx.symm.trans hx')
  obtain rfl : y' = y'' := Option.some.inj (hy.symm.trans hy')
  simp [hb]

/-- C6 witness, realising the spec scenario: two adds then one remove leave
the prompt stack at length 1 and the circle stack holding exactly the
first circle. -/
theorem remove_pops_circle_only_witness :
    (2 ≤ stateB.xpoints.length ∧
     stateB.xpoints.dropLast.getLast? = some 1 ∧
     stateB.ypoints.dropLast.getLast? = some 2 ∧
     remove_last_point testP stateB = some stateBR) ∧
    (stateBR.xpoints = stateB.xpoints.dropLast ∧
     stateBR.circle_shapes = stateB.circle_shapes.dropLast ∧
     stateBR.annotations = stateB.annotations.dropLast ∧
     stateBR.current_mask = (selectPair (testP [(1, 2)] [1])).map fun q => q.1) :=
  ⟨⟨by decide, by decide, by decide, by decide⟩,
    remove_pops_circle_only testP stateB stateBR 1 2
      (by decide) (by decide) (by decide) (by decide)⟩

/-- In a list sorted ascending by score, every element is bounded by the
last one. -/
theorem sorted_getLast_max {l : List (Mask × ℚ)} {p : Mask × ℚ}
    (hp : l.Pairwise scoreLE) (h : l.getLast? = some p) :
    ∀ q ∈ l, scoreLE q p := by
  induction l with
  | nil => cases h
  | cons a l ih =>
      cases l with
      | nil =>
          rw [List.getLast?_singleton] at h
          cases h
          intro q hq
          rw [List.mem_singleton] at hq
          subst hq
          exact le_refl q.2
      | cons b l2 =>
          rw [List.getLast?_cons_cons] at h
          intro q hq
          rcases List.mem_cons.mp hq with rfl | hq2
          · exact (List.pairwise_cons.mp hp).1 p (List.mem_of_getLast?_eq_some h)
          · exact ih hp.of_cons h q hq2

/-- Elements surviving the low-score run of a sorted candidate list all
reach the threshold. -/
theorem sorted_dropWhile_ge (m : ℚ) (l : List (Mask × ℚ)) :
    l.Pairwise scoreLE →
      ∀ q ∈ l.dropWhile (fun q => !decide (m ≤ q.2)), m ≤ q.2 := by
  induction l with
  | nil => intro _ q hq; cases hq
  | cons a l ih =>
      intro hp q hq
      rw [List.dropWhile_cons] at hq
      by_cases ha : m ≤ a.2
      · rw [if_neg (by simp [ha])] at hq
        rcases List.mem_cons.mp hq with rfl | hq2
        · exact ha
        · exact le_trans ha ((List.pairwise_cons.mp hp).1 q hq2)
      · rw [if_pos (by simp [ha])] at hq
        exact ih hp.of_cons q hq

/-- C8: the pair selected at lines 81-83 (last after the stable ascending
sort by score) has maximal confidence score, and among candidates tied at
that maximal score it is the one occurring latest in the order the
predictor returned: it is the last element of the sublist of candidates
whose score is maximal. -/
theorem selectPair_picks_last_max (pairs : List (Mask × ℚ)) (p : Mask × ℚ)
    (h : selectPair pairs = some p) :
    (∀ q ∈ pairs, q.2 ≤ p.2) ∧
    (pairs.filter fun q => decide (p.2 ≤ q.2)).getLast? = some p := by
  unfold selectPair at h
  set L := pairs.insertionSort scoreLE with hL
  have hsorted : L.Pairwise scoreLE := List.sorted_insertionSort scoreLE pairs
  have hperm : L ~ pairs := List.perm_insertionSort scoreLE pairs
  have hmax : ∀ q ∈ pairs, scoreLE q p := fun q hq =>
    sorted_getLast_max hsorted h q (hperm.mem_iff.mpr hq)
  refine ⟨hmax, ?_⟩
  have hpF : p ∈ pairs.filter fun q => decide (p.2 ≤ q.2) := by
    rw [List.mem_filter]
    exact ⟨hperm.mem_iff.mp (List.mem_of_getLast?_eq_some h),
      by simp⟩
  have hFscore : ∀ q ∈ pairs.filter fun q => decide (p.2 ≤ q.2), q.2 = p.2 := by
    intro q hq
    rw [List.mem_filter] at hq
    exact le_antisymm (hmax q hq.1) (by simpa using hq.2)
  have hFpair : (pairs.filter fun q => decide (p.2 ≤ q.2)).Pairwise scoreLE := by
    apply List.pairwise_of_forall_mem_list
    intro a ha b hb
    show a.2 ≤ b.2
    rw [hFscore a ha, hFscore b hb]
  have hFsubL : (pairs.filter fun q => decide (p.2 ≤ q.2)) <+ L :=
    List.sublist_insertionSort hFpair (List.filter_sublist pairs)
  -- decompose the sorted list into a low-score part and the maximal suffix
  have hsplit : L.takeWhile (fun q => !decide (p.2 ≤ q.2)) ++
      L.dropWhile (fun q => !decide (p.2 ≤ q.2)) = L :=
    List.takeWhile_append_dropWhile _ _
  have hpreLT : ∀ q ∈ L.takeWhile (fun q => !decide (p.2 ≤ q.2)), ¬ p.2 ≤ q.2 := by
    intro q hq
    have := List.mem_takeWhile_imp hq
    simpa using this
  have hSge : ∀ q ∈ L.dropWhile (fun q => !decide (p.2 ≤ q.2)), p.2 ≤ q.2 :=
    sorted_dropWhile_ge p.2 L hsorted
  have hFsubS : (pairs.filter fun q => decide (p.2 ≤ q.2)) <+
      L.dropWhile (fun q => !decide (p.2 ≤ q.2)) := by
    refine List.Sublist.of_sublist_append_right ?_ (hsplit ▸ hFsubL)
    intro a haF hapre
    have ha2 : p.2 ≤ a.2 := by
      rw [List.mem_filter] at haF
      simpa using haF.2
    exact hpreLT a hapre ha2
  have hFS : (pairs.filter fun q => decide (p.2 ≤ q.2)) ~
      L.dropWhile (fun q => !decide (p.2 ≤ q.2)) := by
    have hp1 : (pairs.filter fun q => decide (p.2 ≤ q.2)) ~
        L.filter fun q => decide (p.2 ≤ q.2) :=
      hperm.symm.filter _
    have hpre0 : (L.takeWhile (fun q => !decide (p.2 ≤ q.2))).filter
        (fun q => decide (p.2 ≤ q.2)) = [] :=
      List.filter_eq_nil_iff.mpr (fun a ha => by simpa using hpreLT a ha)
    have hS1 : (L.dropWhile (fun q => !decide (p.2 ≤ q.2))).filter
        (fun q => decide (p.2 ≤ q.2)) = L.dropWhile (fun q => !decide (p.2 ≤ q.2)) :=
      List.filter_eq_self.mpr (fun a ha => by simpa using hSge a ha)
    rw [← hsplit, List.filter_append, hpre0, hS1, List.nil_append] at hp1
    exact hp1
  have hFeqS : (pairs.filter fun q => decide (p.2 ≤ q.2)) =
      L.dropWhile (fun q => !decide (p.2 ≤ q.2)) :=
    hFsubS.eq_of_length hFS.length_eq
  have hSne : L.dropWhile (fun q => !decide (p.2 ≤ q.2)) ≠ [] := by
    rw [← hFeqS]
    intro h0
    rw [h0] at hpF
    cases hpF
  have hex : (L.dropWhile (fun q => !decide (p.2 ≤ q.2))).getLast? ≠ none :=
    fun h0 => hSne (List.getLast?_eq_none_iff.mp h0)
  obtain ⟨r, hr⟩ := Option.ne_none_iff_exists'.mp hex
  rw [← hsplit, List.getLast?_append, hr, Option.or_some] at h
  rw [hFeqS, hr, h]

theorem selectPair_picks_last_max_witness :
    selectPair [([[true]], 1), ([[false]], 1), ([[true], [true]], 0)] =
      some ([[false]], 1) ∧
    ((∀ q ∈ [(([[true]] : Mask), (1 : ℚ)), ([[false]], 1), ([[true], [true]], 0)],
        q.2 ≤ (([[false]] : Mask), (1 : ℚ)).2) ∧
      ([(([[true]] : Mask), (1 : ℚ)), ([[false]], 1),
          ([[true], [true]], 0)].filter
            fun q => decide ((([[false]] : Mask), (1 : ℚ)).2 ≤ q.2)).getLast? =
        some ([[false]], 1)) :=
  ⟨by decide,
    selectPair_picks_last_max
      [([[true]], 1), ([[false]], 1), ([[true], [true]], 0)]
      ([[false]], 1) (by decide)⟩

/-! Roundness: the computation at lines 177-188 of the source, with the
real-number semantics of the Python float arithmetic. -/

/-- Number of foreground grid cells of a mask: the cardinality of the set of
full-grid coordinates whose cell is foreground. -/
def foregroundCard (m : Mask) : ℕ :=
  ((Finset.range (maskW m) ×ˢ Finset.range (maskH m)).filter
    fun q => maskAt m q.1 q.2 = true).card

theorem mem_allPoints {m : Mask} {q : ℕ × ℕ} :
    q ∈ allPoints m ↔
      q.1 < maskW m ∧ q.2 < maskH m ∧ maskAt m q.1 q.2 = true := by
  unfold allPoints
  rw [List.mem_flatMap]
  constructor
  · rintro ⟨x, hx, hq⟩
    rw [List.mem_filterMap] at hq
    obtain ⟨y, hy, hf⟩ := hq
    by_cases hm : maskAt m x y
    · rw [if_pos hm] at hf
      cases hf
      exact ⟨List.mem_range.mp hx, List.mem_range.mp hy, hm⟩
    · rw [if_neg hm] at hf
      cases hf
  · rintro ⟨hx, hy, hm⟩
    refine ⟨q.1, List.mem_range.mpr hx, ?_⟩
    rw [List.mem_filterMap]
    exact ⟨q.2, List.mem_range.mpr hy, by rw [if_pos hm]⟩

theorem fst_of_mem_inner {m : Mask} {x : ℕ} {a : ℕ × ℕ}
    (ha : a ∈ (List.range (maskH m)).filterMap
      fun y => if maskAt m x y then some (x, y) else none) :
    a.1 = x := by
  rw [List.mem_filterMap] at ha
  obtain ⟨y, hy, hf⟩ := ha
  by_cases hm : maskAt m x y
  · rw [if_pos hm] at hf; cases hf; rfl
  · rw [if_neg hm] at hf; cases hf

theorem allPoints_nodup (m : Mask) : (allPoints m).Nodup := by
  unfold allPoints
  rw [List.nodup_flatMap]
  constructor
  · intro x hx
    refine List.Nodup.filterMap ?_ (List.nodup_range _)
    intro a a' b hb hb'
    by_cases hm : maskAt m x a
    · by_cases hm' : maskAt m x a'
      · rw [if_pos hm] at hb
        rw [if_pos hm'] at hb'
        rw [Option.mem_def, Option.some_inj] at hb hb'
        rw [← hb'] at hb
        exact ((Prod.mk.injEq _ _ _ _).mp hb).2
      · rw [if_neg hm'] at hb'
        cases hb'
    · rw [if_neg hm] at hb
      cases hb
  · refine (List.pairwise_lt_range _).imp ?_
    intro x x' hxx a ha ha'
    have h1 := fst_of_mem_inner (m := m) ha
    have h2 := fst_of_mem_inner (m := m) ha'
    rw [h1] at h2
    exact absurd h2 (Nat.ne_of_lt hxx)

theorem allPoints_toFinset (m : Mask) :
    (allPoints m).toFinset =
      (Finset.range (maskW m) ×ˢ Finset.range (maskH m)).filter
        fun q => maskAt m q.1 q.2 = true := by
  ext q
  rw [List.mem_toFinset, mem_allPoints, Finset.mem_filter, Finset.mem_product,
    Finset.mem_range, Finset.mem_range]
  tauto

/-- The length of the scanned point list equals the number of foreground
grid cells. -/
theorem allPoints_length (m : Mask) :
    (allPoints m).length = foregroundCard m := by
  rw [← List.toFinset_card_of_nodup (allPoints_nodup m), allPoints_toFinset,
    foregroundCard]

/-- The sphericity computation of `add_circle` (lines 177-187) in the real
semantics of the Python float arithmetic: the scanned pixel count
divided by the fitted circle area. `none` models the raising paths:
the solver returning `None`, and the ZeroDivisionError of line 184 when
`circle_area` is exactly zero (the fitted radius is 0). -/
noncomputable def addCircleSphericity (fit : CircleSolver) (m : Mask) :
    Option ℝ :=
  (fit (allPoints m)).bind fun c =>
    if Real.pi * (c.2.2 : ℝ) * (c.2.2 : ℝ) = 0 then none
    else some (((allPoints m).length : ℝ) /
      (Real.pi * (c.2.2 : ℝ) * (c.2.2 : ℝ)))

/-- The circle area computed by `add_circle` (line 182); this line itself
never raises. -/
noncomputable def addCircleArea (fit : CircleSolver) (m : Mask) : Option ℝ :=
  (fit (allPoints m)).map fun c => Real.pi * (c.2.2 : ℝ) * (c.2.2 : ℝ)

/-- C4 counterexample: the claim fails at a degenerate mask. For the
single-foreground-pixel mask the solver returns a zero-radius circle,
and line 184 raises ZeroDivisionError: no roundness is computed at all,
so in particular the computed roundness does not equal the claimed
count-over-area value. -/
theorem sphericity_formula_counterexample :
    0 < foregroundCard [[true]] ∧
    testFit (allPoints [[true]]) = some (0, 0, 0) ∧
    addCircleSphericity testFit [[true]] = none ∧
    addCircleSphericity testFit [[true]] ≠
      some ((foregroundCard [[true]] : ℝ) /
        (Real.pi * ((((0, 0, 0) : Circle).2.2 : ℚ) : ℝ) ^ 2)) := by
  have h1 : testFit (allPoints [[true]]) = some (0, 0, 0) := by decide
  have h2 : addCircleSphericity testFit [[true]] = none := by
    unfold addCircleSphericity
    rw [h1, Option.some_bind, if_pos (by norm_num)]
  refine ⟨by decide, h1, h2, ?_⟩
  rw [h2]
  exact fun h0 => Option.noConfusion h0

/-- C4 amended: for every mask with at least one foreground pixel whose
fitted minimal enclosing circle has nonzero radius, the computed
roundness is exactly the number of foreground grid cells (the full-grid
scan) divided by pi times the square of that radius; with a zero radius
the division of line 184 raises and no roundness is produced. -/
theorem sphericity_eq_count_div_area (fit : CircleSolver) (m : Mask)
    (c : Circle) (hfg : 0 < foregroundCard m)
    (hc : fit (allPoints m) = some c) (hr : c.2.2 ≠ 0) :
    addCircleSphericity fit m =
      some ((foregroundCard m : ℝ) / (Real.pi * (c.2.2 : ℝ) ^ 2)) := by
  unfold addCircleSphericity
  rw [hc, Option.some_bind,
    if_neg (mul_ne_zero (mul_ne_zero Real.pi_ne_zero
      ((Rat.cast_ne_zero (α := ℝ)).mpr hr)) ((Rat.cast_ne_zero (α := ℝ)).mpr hr)),
    allPoints_length]
  congr 1
  ring_nf

theorem sphericity_eq_count_div_area_witness :
    (0 < foregroundCard [[true, true]] ∧
      testFit (allPoints [[true, true]]) = some (0, 0, 1) ∧
      (((0, 0, 1) : Circle).2.2 : ℚ) ≠ 0) ∧
    addCircleSphericity testFit [[true, true]] =
      some ((foregroundCard [[true, true]] : ℝ) /
        (Real.pi * ((((0, 0, 1) : Circle).2.2 : ℚ) : ℝ) ^ 2)) :=
  ⟨⟨by decide, by decide, by decide⟩,
    sphericity_eq_count_div_area testFit [[true, true]] (0, 0, 1)
      (by decide) (by decide) (by decide)⟩

/-- C10 counterexample: the claimed guard does not exist. On the
single-foreground-pixel mask the solver returns a zero-radius circle,
the circle area of line 182 is exactly 0, and line 184 divides by it:
a ZeroDivisionError is raised (modelled `none`), aborting the whole
`add_point` before any circle or annotation is pushed - the code neither
clamps nor reports the roundness as undefined, it crashes with exactly
the division error the claim rules out. -/
theorem sphericity_unguarded_counterexample :
    addCircleArea testFit [[true]] = some 0 ∧
    addCircleSphericity testFit [[true]] = none ∧
    add_point onePixelP testFit 1 1 initState = none := by
  have h1 : testFit (allPoints [[true]]) = some (0, 0, 0) := by decide
  refine ⟨?_, ?_, by decide⟩
  · unfold addCircleArea
    rw [h1, Option.map_some']
    norm_num
  · unfold addCircleSphericity
    rw [h1, Option.some_bind, if_pos (by norm_num)]

/-- C10 amended: there is no guard and no clamping. Whenever the fitted
circle has radius 0, the circle area of line 182 is exactly 0 and the
division of line 184 raises ZeroDivisionError instead of reporting an
undefined roundness: the sphericity computation fails, and `add_circle`
aborts without pushing a circle or annotation, whatever the state. -/
theorem sphericity_zero_radius_raises (fit : CircleSolver) (m : Mask)
    (cx cy : ℚ) (s : VisState) (hc : fit (allPoints m) = some (cx, cy, 0))
    (hm : s.current_mask = some m) :
    addCircleArea fit m = some 0 ∧
    addCircleSphericity fit m = none ∧
    add_circle fit s = none := by
  refine ⟨?_, ?_, ?_⟩
  · unfold addCircleArea
    rw [hc, Option.map_some']
    norm_num
  · unfold addCircleSphericity
    rw [hc, Option.some_bind, if_pos (by norm_num)]
  · unfold add_circle
    rw [hm]
    dsimp only
    rw [hc]
    dsimp only
    rw [if_pos rfl]

theorem sphericity_zero_radius_raises_witness :
    (testFit (allPoints [[true]]) = some (0, 0, 0) ∧
      ({ initState with current_mask := some [[true]] } : VisState).current_mask =
        some [[true]]) ∧
    (addCircleArea testFit [[true]] = some 0 ∧
     addCircleSphericity testFit [[true]] = none ∧
     add_circle testFit { initState with current_mask := some [[true]] } = none) :=
  ⟨⟨by decide, rfl⟩,
    sphericity_zero_radius_raises testFit [[true]] 0 0
      { initState with current_mask := some [[true]] } (by decide) rfl⟩

end Segmenter
